import Mathlib

/-!
# Issue Resolution Predictor of `server.js`

A shallow embedding of `analyzeResolutionProbability` (server.js, lines 222-381), of the
fallback of `smartAnalyze` (lines 58-99) and of the open-issue filter of
`fetchGitHubContext` (lines 148-166).

Modelling conventions.

* A JavaScript string is its sequence of UTF-16 code units, `Str = List Nat`, so that
  `length`, `substring` and `includes` are `List.length`, `List.take` and the
  contiguous-sublist test.
* `String.prototype.toLowerCase` is a primitive of the language runtime. Every
  definition that calls it takes it as the argument `lower`, and every theorem holds
  for an arbitrary `lower`. `asciiLower` is the instance used on concrete ASCII inputs.
* `success_rate` is the quotient of two integers no larger than 1275 (at most 15
  issues, 5 excerpts each, 10 success and 7 failure phrases). It is modelled by the
  exact rational: on such quotients IEEE-754 rounding is strictly monotone, so the
  comparisons made by the sort and the value `0.5` are the same in both readings.
* `Array.prototype.sort` is stable; it is modelled by insertion sort, which is stable.
* The regular expressions of the fallback are alternations of literal strings or single
  character classes without the unicode flag; they are modelled on code units.
* The network is modelled by its outcomes: the closed-issue search either throws
  (`Except.error`) or returns its items, and every candidate carries the outcome of
  the request for its comment thread (`none` when the request throws).
-/

namespace IRP

/-- A JavaScript string, as its sequence of UTF-16 code units. -/
abbrev Str := List Nat

/-- The code units of a source literal (the literals of server.js are ASCII). -/
def lit (s : String) : Str := s.toList.map Char.toNat

/-- The call `s.includes(sub)`: `sub` occurs in `s` as a contiguous run. -/
def includes : Str → Str → Bool
  | [], sub => sub.isEmpty
  | c :: rest, sub => sub.isPrefixOf (c :: rest) || includes rest sub

/-- Lowercasing of the ASCII letters; agrees with `toLowerCase` on ASCII text. -/
def asciiLower (s : Str) : Str := s.map fun c => if 65 ≤ c ∧ c ≤ 90 then c + 32 else c

/-- Uppercasing of the ASCII letters; agrees with `toUpperCase` on ASCII text. -/
def asciiUpper (s : Str) : Str := s.map fun c => if 97 ≤ c ∧ c ≤ 122 then c - 32 else c

/-- One comment of an issue thread, as returned by the tracker. -/
structure Comment where
  /-- The field `body`; `none` when it is null or absent. -/
  body : Option Str
  /-- The field `user.login`. -/
  login : Str
  created_at : Str
deriving DecidableEq

/-- One item of the closed-issue search. -/
structure Issue where
  number : Nat
  title : Str
  html_url : Str
  /-- The names of the labels, `issue.labels.map(l => l.name)`. -/
  labels : List Str
deriving DecidableEq

/-- A search item together with the outcome of `axios.get(issue.comments_url)`:
`none` when the request throws, `some comments` otherwise. Any other exception raised
inside the `try` of lines 251-305 (a qualifying comment without `user`, say) ends in the
same `catch` and is covered by `none` as well. -/
structure Candidate where
  issue : Issue
  thread : Option (List Comment)
deriving DecidableEq

/-- An element of `solutions` (lines 292-296). -/
structure Solution where
  author : Str
  body : Str
  created_at : Str
deriving DecidableEq

/-- The object returned for one issue (lines 288-301). -/
structure IssueAnalysis where
  issue_number : Nat
  title : Str
  url : Str
  solutions : List Solution
  success_indicators : Nat
  failure_indicators : Nat
  total_comments : Nat
  labels : List Str
deriving DecidableEq

/-- An element of a group's `evidence` (lines 340-344). -/
structure Evidence where
  issue : Nat
  link : Str
  title : Str
deriving DecidableEq

/-- A value of `solutionGroups` (lines 328-334). -/
structure SolutionGroup where
  label : Str
  success_count : Nat
  failure_count : Nat
  trials : Nat
  evidence : List Evidence
deriving DecidableEq

/-- The three confidence strings `'high'`, `'medium'`, `'low'`. -/
inductive Confidence where
  | high
  | medium
  | low
deriving DecidableEq

/-- An element of `predictions` (lines 350-360). -/
structure Prediction where
  label : Str
  success_count : Nat
  failure_count : Nat
  trials : Nat
  success_rate : ℚ
  confidence : Confidence
  evidence : List Evidence
deriving DecidableEq

/-- The two message templates of the predictor. -/
inductive Message where
  /-- The text `'No similar closed issues found for prediction'`. -/
  | noSimilarClosedIssues
  /-- The text `Analyzed ${n} similar closed issues`. -/
  | analyzed (n : Nat)
deriving DecidableEq

/-- The object returned by `analyzeResolutionProbability`; a field the returned object
does not have is `none`. -/
structure Report where
  predictions : List Prediction
  total_issues_analyzed : Option Nat
  confidence : Confidence
  message : Option Message
  error : Option Str
deriving DecidableEq

/-- The array `successPhrases` (lines 261-264). -/
def successPhrases : List Str :=
  [lit "this worked", lit "fixed it", lit "solved", lit "resolved", lit "working now",
   lit "thank you", lit "thanks!", lit "perfect", lit "that did it", lit "success"]

/-- The array `failurePhrases` (lines 267-270). -/
def failurePhrases : List Str :=
  [lit "didn\x27t work", lit "still broken", lit "not working", lit "same issue",
   lit "didn\x27t fix", lit "still happening", lit "no luck"]

/-- The filter predicate of line 274:
`c.body && (c.body.includes(fence) || c.body.length > 100)`, the fence being three
backticks. A null and an empty body are both falsy. -/
def isSolutionComment (c : Comment) : Bool :=
  match c.body with
  | none => false
  | some b => !b.isEmpty && (includes b (lit "```") || decide (b.length > 100))

/-- The array `solutions` of lines 273-275 and 292-296: the first five qualifying
comments, each body cut by `substring(0, 500)`. -/
def extractSolutions (comments : List Comment) : List Solution :=
  ((comments.filter isSolutionComment).take 5).map fun s =>
    { author := s.login, body := (s.body.getD []).take 500, created_at := s.created_at }

/-- The element `c.body?.toLowerCase() || ''` of line 278. -/
def lowerBody (lower : Str → Str) (c : Comment) : Str :=
  match c.body with
  | none => []
  | some b => if (lower b).isEmpty then [] else lower b

/-- The string `allText` of line 278. -/
def allText (lower : Str → Str) (comments : List Comment) : Str :=
  List.intercalate (lit " ") (comments.map (lowerBody lower))

/-- The expression `phrases.filter(phrase => text.includes(phrase)).length`
(lines 280-286). -/
def countPhrases (phrases : List Str) (text : Str) : Nat :=
  (phrases.filter fun phrase => includes text phrase).length

/-- The analysis of a fetched thread (lines 258-301). -/
def analyzeThread (lower : Str → Str) (issue : Issue) (comments : List Comment) :
    IssueAnalysis :=
  { issue_number := issue.number
    title := issue.title
    url := issue.html_url
    solutions := extractSolutions comments
    success_indicators := countPhrases successPhrases (allText lower comments)
    failure_indicators := countPhrases failurePhrases (allText lower comments)
    total_comments := comments.length
    labels := issue.labels }

/-- The callback of `closedIssues.slice(0, 15).map` (lines 250-306): `none` is the
`null` returned from the `catch`. -/
def analyzeCandidate (lower : Str → Str) (c : Candidate) : Option IssueAnalysis :=
  match c.thread with
  | none => none
  | some comments => some (analyzeThread lower c.issue comments)

/-- The array `validAnalysis` (lines 249-310). -/
def validAnalysis (lower : Str → Str) (closedIssues : List Candidate) :
    List IssueAnalysis :=
  ((closedIssues.take 15).map (analyzeCandidate lower)).filterMap id

/-- The variable `solutionType` of lines 318-325, for the excerpt `body`. -/
def solutionType (lower : Str → Str) (body : Str) : Str :=
  let text := lower body
  if includes text (lit "upgrade") || includes text (lit "update") then
    lit "upgrade_dependency"
  else if includes text (lit "downgrade") then lit "downgrade_dependency"
  else if includes text (lit "config") || includes text (lit "setting") then
    lit "configuration_change"
  else if includes text (lit "workaround") || includes text (lit "hack") then
    lit "workaround"
  else if includes text (lit "```") then lit "code_fix"
  else lit "general_fix"

/-- The group created at lines 328-334. -/
def newGroup (label : Str) : SolutionGroup :=
  { label := label, success_count := 0, failure_count := 0, trials := 0, evidence := [] }

/-- The updates of lines 337-344 on the group of an excerpt. -/
def bump (a : IssueAnalysis) (g : SolutionGroup) : SolutionGroup :=
  { g with
    success_count := g.success_count + a.success_indicators
    failure_count := g.failure_count + a.failure_indicators
    trials := g.trials + 1
    evidence := g.evidence ++ [{ issue := a.issue_number, link := a.url, title := a.title }] }

/-- One iteration of the inner loop (lines 316-345) with `ty` the excerpt's type.
The object `solutionGroups` is the list of its values in insertion order, which is
the order `Object.values` returns. -/
def addToGroup (groups : List SolutionGroup) (a : IssueAnalysis) (ty : Str) :
    List SolutionGroup :=
  let groups1 := if groups.any (fun g => g.label == ty) then groups else groups ++ [newGroup ty]
  groups1.map fun g => if g.label = ty then bump a g else g

/-- The two nested loops of lines 313-346. -/
def groupSolutions (lower : Str → Str) (analyses : List IssueAnalysis) :
    List SolutionGroup :=
  analyses.foldl
    (fun groups a =>
      a.solutions.foldl (fun groups s => addToGroup groups a (solutionType lower s.body)) groups)
    []

/-- The field `success_rate` (lines 355-357). -/
def successRate (g : SolutionGroup) : ℚ :=
  if g.success_count + g.failure_count > 0 then
    (g.success_count : ℚ) / ((g.success_count : ℚ) + (g.failure_count : ℚ))
  else 1 / 2

/-- The field `confidence` of a prediction (line 358). -/
def groupConfidence (trials : Nat) : Confidence :=
  if trials > 3 then .high else if trials > 1 then .medium else .low

/-- The field `label` of a prediction (line 351): underscores become blanks, then
`toUpperCase`; it is only applied to the six ASCII labels. -/
def displayLabel (label : Str) : Str :=
  asciiUpper (label.map fun c => if c = 95 then 32 else c)

/-- The callback of the `map` of lines 350-360. -/
def toPrediction (g : SolutionGroup) : Prediction :=
  { label := displayLabel g.label
    success_count := g.success_count
    failure_count := g.failure_count
    trials := g.trials
    success_rate := successRate g
    confidence := groupConfidence g.trials
    evidence := g.evidence.take 3 }

/-- The comparator of line 361, `(a, b) => b.success_rate - a.success_rate`, is not
positive exactly when `a` may stand before `b`. -/
def rateGE (a b : Prediction) : Prop := b.success_rate ≤ a.success_rate

instance rateGE_decidable : DecidableRel rateGE := fun a b =>
  inferInstanceAs (Decidable (b.success_rate ≤ a.success_rate))

instance rateGE_isTotal : IsTotal Prediction rateGE := ⟨fun _ _ => le_total _ _⟩

instance rateGE_isTrans : IsTrans Prediction rateGE := ⟨fun _ _ _ hab hbc => le_trans hbc hab⟩

/-- The array `predictions` (lines 349-362). -/
def rankPredictions (groups : List SolutionGroup) : List Prediction :=
  ((groups.map toPrediction).insertionSort rateGE).take 5

/-- The field `confidence` of the report (line 369). -/
def reportConfidence (predictions : List Prediction) : Confidence :=
  match predictions with
  | [] => .medium
  | p :: _ => if p.trials > 3 then .high else .medium

/-- The object returned at lines 366-371 from `validAnalysis`. -/
def buildReport (lower : Str → Str) (analyses : List IssueAnalysis) : Report :=
  let predictions := rankPredictions (groupSolutions lower analyses)
  { predictions := predictions
    total_issues_analyzed := some analyses.length
    confidence := reportConfidence predictions
    message := some (.analyzed analyses.length)
    error := none }

/-- The function `analyzeResolutionProbability` (lines 222-381). `search` is the
outcome of the closed-issue search: `.error msg` when the request throws with message
`msg`, `.ok items` otherwise with `items` the array `closedSearch.data.items || []`. -/
def analyzeResolutionProbability (lower : Str → Str)
    (search : Except Str (List Candidate)) : Report :=
  match search with
  | .error msg =>
    { predictions := [], total_issues_analyzed := none, confidence := .low,
      message := none, error := some msg }
  | .ok closedIssues =>
    if closedIssues.length = 0 then
      { predictions := [], total_issues_analyzed := none, confidence := .low,
        message := some .noSimilarClosedIssues, error := none }
    else buildReport lower (validAnalysis lower closedIssues)

/-- The six strategy labels. -/
def strategyLabels : List Str :=
  [lit "upgrade_dependency", lit "downgrade_dependency", lit "configuration_change",
   lit "workaround", lit "code_fix", lit "general_fix"]

/-- The ordered rule list in the words of the specification: the keywords of a rule and
its label. -/
def specRules : List (List Str × Str) :=
  [([lit "upgrade", lit "update"], lit "upgrade_dependency"),
   ([lit "downgrade"], lit "downgrade_dependency"),
   ([lit "config", lit "setting"], lit "configuration_change"),
   ([lit "workaround", lit "hack"], lit "workaround"),
   ([lit "```"], lit "code_fix")]

/-- Classification in the words of the specification: the label of the first rule one
of whose keywords is contained in the lowercased text, `general_fix` when there is none. -/
def specClassify (lower : Str → Str) (body : Str) : Str :=
  match specRules.find? (fun rule => rule.1.any fun k => decide (k <:+: lower body)) with
  | some rule => rule.2
  | none => lit "general_fix"

/-- The (issue, excerpt) pairs in the order in which the two loops of lines 315-316
visit them. -/
def excerptPairs (analyses : List IssueAnalysis) : List (IssueAnalysis × Solution) :=
  analyses.flatMap fun a => a.solutions.map fun s => (a, s)

/-- The evidence entry pushed for an excerpt of the issue `a` (lines 340-344). -/
def evidenceOf (a : IssueAnalysis) : Evidence :=
  { issue := a.issue_number, link := a.url, title := a.title }

/-- The group of label `L` in the words of the specification, for excerpts classified
by `cl`: one trial per (issue, excerpt) pair classified to `L`, and the sums over those
pairs of the issue's success and failure signal counts. -/
def specGroup (cl : Solution → Str) (pairs : List (IssueAnalysis × Solution)) (L : Str) :
    SolutionGroup :=
  { label := L
    success_count := ((pairs.filter fun p => cl p.2 = L).map fun p => p.1.success_indicators).sum
    failure_count := ((pairs.filter fun p => cl p.2 = L).map fun p => p.1.failure_indicators).sum
    trials := (pairs.filter fun p => cl p.2 = L).length
    evidence := (pairs.filter fun p => cl p.2 = L).map fun p => evidenceOf p.1 }

/-- The thread text in the words of the specification: the comment bodies lowercased, a
missing body taken as empty, joined by single spaces. -/
def specThreadText (lower : Str → Str) (comments : List Comment) : Str :=
  List.intercalate [32] (comments.map fun c =>
    match c.body with
    | none => []
    | some b => lower b)

/-- The candidates among the first fifteen whose thread request succeeded, in their
original order. -/
def fetched (closedIssues : List Candidate) : List Candidate :=
  (closedIssues.take 15).filter fun c => c.thread.isSome

/-- A search item used in the concrete evaluations. -/
def sampleIssue : Issue :=
  { number := 1, title := lit "build fails", html_url := lit "https://github.com/o/r/issues/1",
    labels := [] }

/-- A candidate whose thread request throws. -/
def failingCandidate : Candidate := { issue := sampleIssue, thread := none }

/-- The comment body of the upgrade scenario (42 characters, no code fence). -/
def thanksBody : Str := lit "please upgrade lodash to fix this, thanks!"

/-- A comment with the body of the upgrade scenario. -/
def thanksComment : Comment :=
  { body := some thanksBody, login := lit "dev", created_at := lit "2024-01-01T00:00:00Z" }

/-- A closed issue whose thread is the single comment of the upgrade scenario. -/
def thanksCandidate : Candidate := { issue := sampleIssue, thread := some [thanksComment] }

/-- The scenario text followed by a fenced code block, which makes it solution evidence. -/
def fencedBody : Str := lit "please upgrade lodash to fix this, thanks! ```npm i lodash```"

/-- A comment with the fenced body. -/
def fencedComment : Comment :=
  { body := some fencedBody, login := lit "dev", created_at := lit "2024-01-01T00:00:00Z" }

/-- An analysed issue with two excerpts that both classify to `upgrade_dependency`,
three success phrases and one failure phrase. -/
def demoAnalysis : IssueAnalysis :=
  { issue_number := 7, title := lit "install fails", url := lit "https://github.com/o/r/issues/7",
    solutions :=
      [{ author := lit "ann", body := lit "please upgrade", created_at := lit "2024-01-02" },
       { author := lit "bob", body := lit "update it", created_at := lit "2024-01-03" }],
    success_indicators := 3, failure_indicators := 1, total_comments := 2, labels := [] }

/-- The group the loops build from `demoAnalysis`. -/
def demoGroup : SolutionGroup :=
  { label := lit "upgrade_dependency", success_count := 6, failure_count := 2, trials := 2,
    evidence := [evidenceOf demoAnalysis, evidenceOf demoAnalysis] }

/-- An analysed issue with one excerpt and no success or failure phrase. -/
def quietAnalysis : IssueAnalysis :=
  { issue_number := 8, title := lit "odd output", url := lit "https://github.com/o/r/issues/8",
    solutions := [{ author := lit "cy", body := lit "try again", created_at := lit "2024-01-04" }],
    success_indicators := 0, failure_indicators := 0, total_comments := 1, labels := [] }

/-- The group the loops build from `quietAnalysis`. -/
def quietGroup : SolutionGroup :=
  { label := lit "general_fix", success_count := 0, failure_count := 0, trials := 1,
    evidence := [evidenceOf quietAnalysis] }

/-! ## The fallback of `smartAnalyze` (lines 58-99) and the issue filter of
`fetchGitHubContext` (lines 148-166) -/

/-- The object returned by `smartAnalyze`. -/
structure Analysis where
  intent : Str
  keywords : List Str
  tech_stack : List Str
  search_terms : Str
  severity : Str
deriving DecidableEq

/-- The object `patterns` (lines 62-72) in the order of `Object.entries`: the category
and the alternatives of its regular expression, in the order they are written. Every
expression is an alternation of literal strings. -/
def patterns : List (Str × List Str) :=
  [(lit "auth", [lit "auth", lit "login", lit "signup", lit "password", lit "token",
      lit "jwt", lit "session", lit "oauth", lit "credentials"]),
   (lit "performance", [lit "slow", lit "lag", lit "timeout", lit "performance",
      lit "optimize", lit "speed", lit "bottleneck", lit "latency"]),
   (lit "bugs", [lit "bug", lit "error", lit "crash", lit "fail", lit "break", lit "issue",
      lit "exception", lit "throw"]),
   (lit "memory", [lit "memory", lit "leak", lit "heap", lit "garbage", lit "allocation"]),
   (lit "frontend", [lit "react", lit "vue", lit "angular", lit "next", lit "svelte",
      lit "ui", lit "component", lit "css", lit "html", lit "dom"]),
   (lit "backend", [lit "api", lit "server", lit "database", lit "query", lit "endpoint",
      lit "route", lit "middleware", lit "express"]),
   (lit "build", [lit "build", lit "compile", lit "webpack", lit "turbopack", lit "vite",
      lit "bundle", lit "deploy", lit "bundler"]),
   (lit "testing", [lit "test", lit "testing", lit "jest", lit "cypress", lit "playwright",
      lit "unit", lit "integration"]),
   (lit "database", [lit "sql", lit "postgres", lit "mysql", lit "mongodb", lit "redis",
      lit "prisma", lit "orm", lit "query"])]

/-- The first match of an alternation of literals in `s`, as `s.match(regex)` finds it:
the leftmost position at which an alternative matches, and there the first alternative
that does. -/
def regexMatch (alts : List Str) : Str → Option Str
  | [] => alts.find? fun a => a.isPrefixOf []
  | c :: rest =>
    match alts.find? fun a => a.isPrefixOf (c :: rest) with
    | some a => some a
    | none => regexMatch alts rest

/-- The call `regex.test(s)`. -/
def regexTest (alts : List Str) (s : Str) : Bool := (regexMatch alts s).isSome

/-- The loop of lines 74-85: the arrays `keywords` and `tech_stack` after it. -/
def scanPatterns (query_lower : Str) : List Str × List Str :=
  patterns.foldl
    (fun acc p =>
      if regexTest p.2 query_lower then
        (acc.1 ++ [p.1],
          match regexMatch p.2 query_lower with
          | some m => acc.2 ++ [m]
          | none => acc.2)
      else acc)
    ([], [])

/-- The class `\w` of a regular expression without the unicode flag: ASCII letters,
digits and the underscore. -/
def isWordChar (c : Nat) : Bool :=
  (48 ≤ c && c ≤ 57) || (65 ≤ c && c ≤ 90) || c == 95 || (97 ≤ c && c ≤ 122)

/-- The class `\s`: the white space and line terminator code units of ECMAScript. -/
def isSpaceChar (c : Nat) : Bool :=
  (9 ≤ c && c ≤ 13) || c == 32 || c == 160 || c == 5760 || (8192 ≤ c && c ≤ 8202)
    || c == 8232 || c == 8233 || c == 8239 || c == 8287 || c == 12288 || c == 65279

/-- The call `s.replace(/[^\w\s]/g, '')` (line 88). -/
def stripNonWord (s : Str) : Str := s.filter fun c => isWordChar c || isSpaceChar c

/-- The scan behind `splitSpaces`: `cur` is the piece being read, reversed, and `inSep`
tells that the last code unit read was white space. -/
def splitSpacesAux (cur : Str) (inSep : Bool) : Str → List Str
  | [] => [cur.reverse]
  | c :: rest =>
    if isSpaceChar c then
      if inSep then splitSpacesAux [] true rest
      else cur.reverse :: splitSpacesAux [] true rest
    else splitSpacesAux (c :: cur) false rest

/-- The call `s.split(/\s+/)` (line 89): the pieces between the maximal runs of white
space, with an empty piece before a leading and after a trailing run. -/
def splitSpaces (s : Str) : List Str := splitSpacesAux [] false s

/-- The array of line 90. -/
def stopWords : List Str := [lit "this", lit "that", lit "with", lit "from"]

/-- The filter predicate of line 90. -/
def keepWord (word : Str) : Bool := decide (word.length > 3) && !stopWords.contains word

/-- The constant `searchTerms` (lines 87-91). -/
def searchTerms (query_lower : Str) : Str :=
  List.intercalate (lit " ") ((splitSpaces (stripNonWord query_lower)).filter keepWord)

/-- The array `[...new Set(xs)]`: the elements of `xs` without repetition, in the order
of their first occurrence. -/
def uniqueInOrder (xs : List Str) : List Str :=
  xs.foldl (fun acc x => if acc.contains x then acc else acc ++ [x]) []

/-- The function `smartAnalyze` (lines 26-100). `ai` is the outcome of the primary path:
`some parsed` when a client exists and its answer parses, `none` when there is no client
or the call or the parse throws, in which case the fallback of lines 58-99 runs. -/
def smartAnalyze (lower : Str → Str) (ai : Option Analysis) (query : Str) : Analysis :=
  match ai with
  | some parsed => parsed
  | none =>
    let query_lower := lower query
    let keywords := (scanPatterns query_lower).1
    let tech_stack := (scanPatterns query_lower).2
    { intent := match keywords with
        | k :: _ => k
        | [] => lit "general"
      keywords := (uniqueInOrder tech_stack).take 5
      tech_stack := uniqueInOrder tech_stack
      search_terms :=
        if (searchTerms query_lower).isEmpty then query_lower else searchTerms query_lower
      severity :=
        if keywords.contains (lit "crash") || keywords.contains (lit "critical") then lit "high"
        else lit "medium" }

/-- An element of `issues.data` (the open issues of the repository). -/
structure OpenIssue where
  number : Nat
  title : Str
  /-- The field `body`; `none` when it is null or absent. -/
  body : Option Str
  /-- Whether the field `pull_request` is present. -/
  pull_request : Bool
  state : Str
  labels : List Str
  html_url : Str
  created_at : Str
  comments : Nat
deriving DecidableEq

/-- An element of `relevantIssues` (lines 158-166). -/
structure IssueSummary where
  number : Nat
  title : Str
  state : Str
  labels : List Str
  url : Str
  created_at : Str
  comments : Nat
deriving DecidableEq

/-- The callback of the `map` of lines 158-166. -/
def summarize (i : OpenIssue) : IssueSummary :=
  { number := i.number, title := i.title, state := i.state, labels := i.labels,
    url := i.html_url, created_at := i.created_at, comments := i.comments }

/-- The filter predicate of lines 150-156. A null and an empty body are both falsy. -/
def isRelevantIssue (lower : Str → Str) (keywords : List Str) (issue : OpenIssue) : Bool :=
  !issue.pull_request &&
    keywords.any fun keyword =>
      includes (lower issue.title) (lower keyword) ||
        (match issue.body with
          | none => false
          | some b => !b.isEmpty && includes (lower b) (lower keyword))

/-- The array `relevantIssues` (lines 149-166). -/
def relevantIssues (lower : Str → Str) (keywords : List Str) (issues : List OpenIssue) :
    List IssueSummary :=
  ((issues.filter (isRelevantIssue lower keywords)).take 5).map summarize

/-- The words of a text in the words of the specification: the non-empty pieces between
its white-space code units. -/
def specWords (s : Str) : List Str := (s.splitOnP isSpaceChar).filter fun w => !w.isEmpty

/-- The search terms in the words of the specification: the words of the stripped text
(every code unit that is neither a word character nor white space removed) that are
longer than three characters and no stop word, joined by single spaces. -/
def specSearchTerms (query_lower : Str) : Str :=
  List.intercalate [32]
    ((specWords (stripNonWord query_lower)).filter
      fun w => decide (3 < w.length ∧ w ∉ stopWords))

/-- The body of an issue contains the keyword as a case-insensitive substring. -/
def bodyContains (lower : Str → Str) (keyword : Str) (body : Option Str) : Prop :=
  match body with
  | none => False
  | some b => lower keyword <:+: lower b

instance bodyContains_decidable (lower : Str → Str) (keyword : Str) :
    (body : Option Str) → Decidable (bodyContains lower keyword body)
  | none => isFalse fun h => h
  | some b => inferInstanceAs (Decidable (lower keyword <:+: lower b))

/-- Relevance in the words of the specification: the issue is no pull request and its
title or its body contains at least one keyword as a case-insensitive substring. -/
def specRelevant (lower : Str → Str) (keywords : List Str) (issue : OpenIssue) : Prop :=
  issue.pull_request = false ∧
    ∃ keyword ∈ keywords,
      lower keyword <:+: lower issue.title ∨ bodyContains lower keyword issue.body

instance specRelevant_decidable (lower : Str → Str) (keywords : List Str) :
    DecidablePred (specRelevant lower keywords) := fun issue =>
  inferInstanceAs (Decidable (issue.pull_request = false ∧
    ∃ keyword ∈ keywords,
      lower keyword <:+: lower issue.title ∨ bodyContains lower keyword issue.body))

/-- An open issue titled "Add dark mode" without a body. -/
def darkModeIssue : OpenIssue :=
  { number := 11, title := lit "Add dark mode", body := none, pull_request := false,
    state := lit "open", labels := [], html_url := lit "https://github.com/o/r/issues/11",
    created_at := lit "2024-02-01", comments := 0 }

/-- An open issue whose title mentions a keyword in another case. -/
def authIssue : OpenIssue :=
  { number := 12, title := lit "OAuth login broken", body := some [], pull_request := false,
    state := lit "open", labels := [], html_url := lit "https://github.com/o/r/issues/12",
    created_at := lit "2024-02-02", comments := 3 }

/-! ## Substring test -/

theorem includes_iff (s sub : Str) : includes s sub = true ↔ sub <:+: s := by
  induction s with
  | nil => cases sub <;> simp [includes]
  | cons c rest ih =>
    rw [includes, Bool.or_eq_true, ih, List.infix_cons_iff, List.isPrefixOf_iff_prefix]

theorem includes_eq_decide (s sub : Str) : includes s sub = decide (sub <:+: s) := by
  rw [Bool.eq_iff_iff, includes_iff, decide_eq_true_iff]

/-! ## Classification -/

/-- C1: the label the predictor assigns to an excerpt is the label of the first rule of
the ordered rule list that matches the lowercased text (`general_fix` when none does),
and it is one of the six strategy labels. -/
theorem solutionType_first_match (lower : Str → Str) (body : Str) :
    solutionType lower body = specClassify lower body
      ∧ solutionType lower body ∈ strategyLabels := by
  constructor
  · simp only [solutionType, specClassify, specRules, includes_eq_decide, List.find?,
      List.any, Bool.or_false]
    generalize decide (lit "upgrade" <:+: lower body) = b1
    generalize decide (lit "update" <:+: lower body) = b2
    generalize decide (lit "downgrade" <:+: lower body) = b3
    generalize decide (lit "config" <:+: lower body) = b4
    generalize decide (lit "setting" <:+: lower body) = b5
    generalize decide (lit "workaround" <:+: lower body) = b6
    generalize decide (lit "hack" <:+: lower body) = b7
    generalize decide (lit "```" <:+: lower body) = b8
    cases b1 <;> cases b2 <;> cases b3 <;> cases b4 <;> cases b5 <;> cases b6 <;> cases b7 <;>
      cases b8 <;> rfl
  · simp only [solutionType, strategyLabels]
    split_ifs <;> simp

/-! ## Grouping -/

theorem groupSolutions_eq_foldl (lower : Str → Str) (analyses : List IssueAnalysis) :
    groupSolutions lower analyses =
      (excerptPairs analyses).foldl
        (fun groups p => addToGroup groups p.1 (solutionType lower p.2.body)) [] := by
  unfold groupSolutions
  generalize ([] : List SolutionGroup) = init
  induction analyses generalizing init with
  | nil => rfl
  | cons a rest ih =>
    simp only [List.foldl_cons, excerptPairs, List.flatMap_cons, List.foldl_append,
      List.foldl_map]
    exact ih _

theorem addToGroup_labels (groups : List SolutionGroup) (a : IssueAnalysis) (ty : Str) :
    (addToGroup groups a ty).map (fun g => g.label) =
      if ty ∈ groups.map (fun g => g.label) then groups.map (fun g => g.label)
      else groups.map (fun g => g.label) ++ [ty] := by
  have hb : ∀ l : List SolutionGroup,
      (l.map fun g => if g.label = ty then bump a g else g).map (fun g => g.label)
        = l.map (fun g => g.label) := by
    intro l
    rw [List.map_map]
    apply List.map_congr_left
    intro g _
    by_cases h : g.label = ty <;> simp [h, bump]
  unfold addToGroup
  by_cases h : ty ∈ groups.map (fun g => g.label)
  · have h' : (groups.any fun g => g.label == ty) = true := by
      simp only [List.mem_map] at h
      obtain ⟨g, hg, rfl⟩ := h
      exact List.any_eq_true.2 ⟨g, hg, by simp⟩
    simp only [h', if_pos h, if_true]
    exact hb groups
  · have h' : (groups.any fun g => g.label == ty) = false := by
      rw [Bool.eq_false_iff]
      intro hc
      obtain ⟨g, hg, hgl⟩ := List.any_eq_true.1 hc
      exact h (List.mem_map.2 ⟨g, hg, by simpa using hgl⟩)
    simp only [h', if_neg h]
    rw [hb]
    simp [newGroup]

theorem mem_addToGroup {groups : List SolutionGroup} {a : IssueAnalysis} {ty : Str}
    {g : SolutionGroup} (hg : g ∈ addToGroup groups a ty) :
    (g ∈ groups ∧ g.label ≠ ty)
      ∨ (∃ g0 ∈ groups, g0.label = ty ∧ g = bump a g0)
      ∨ (ty ∉ groups.map (fun g => g.label) ∧ g = bump a (newGroup ty)) := by
  unfold addToGroup at hg
  obtain ⟨g0, hg0, rfl⟩ := List.mem_map.1 hg
  by_cases hany : (groups.any fun g => g.label == ty) = true
  · rw [if_pos hany] at hg0
    by_cases hl : g0.label = ty
    · exact Or.inr (Or.inl ⟨g0, hg0, hl, by simp [hl]⟩)
    · exact Or.inl ⟨by simpa [hl] using hg0, by simp [hl]⟩
  · rw [if_neg hany] at hg0
    have hnot : ty ∉ groups.map (fun g => g.label) := by
      intro hc
      obtain ⟨g1, hg1, rfl⟩ := List.mem_map.1 hc
      exact hany (List.any_eq_true.2 ⟨g1, hg1, by simp⟩)
    rcases List.mem_append.1 hg0 with h | h
    · have hl : g0.label ≠ ty := fun hc => hnot (List.mem_map.2 ⟨g0, h, hc⟩)
      exact Or.inl ⟨by simpa [hl] using h, by simp [hl]⟩
    · have : g0 = newGroup ty := by simpa using h
      subst this
      exact Or.inr (Or.inr ⟨hnot, by simp [newGroup]⟩)

theorem specGroup_append_ne (cl : Solution → Str) (pairs : List (IssueAnalysis × Solution))
    (p : IssueAnalysis × Solution) (L : Str) (h : cl p.2 ≠ L) :
    specGroup cl (pairs ++ [p]) L = specGroup cl pairs L := by
  simp [specGroup, List.filter_append, List.filter_cons, h]

theorem specGroup_append_eq (cl : Solution → Str) (pairs : List (IssueAnalysis × Solution))
    (p : IssueAnalysis × Solution) :
    specGroup cl (pairs ++ [p]) (cl p.2) = bump p.1 (specGroup cl pairs (cl p.2)) := by
  simp [specGroup, bump, List.filter_append, List.filter_cons, evidenceOf]

theorem specGroup_of_unused (cl : Solution → Str) (pairs : List (IssueAnalysis × Solution))
    (L : Str) (h : ∀ q ∈ pairs, cl q.2 ≠ L) : specGroup cl pairs L = newGroup L := by
  have hnil : (pairs.filter fun p => cl p.2 = L) = [] := by
    rw [List.filter_eq_nil_iff]
    intro q hq
    simpa using h q hq
  simp [specGroup, newGroup, hnil]

theorem foldl_addToGroup_spec (cl : Solution → Str) (pairs : List (IssueAnalysis × Solution)) :
    ((pairs.foldl (fun gs p => addToGroup gs p.1 (cl p.2)) []).map fun g => g.label).Nodup
    ∧ (∀ L, L ∈ (pairs.foldl (fun gs p => addToGroup gs p.1 (cl p.2)) []).map (fun g => g.label)
          ↔ ∃ q ∈ pairs, cl q.2 = L)
    ∧ ∀ g ∈ pairs.foldl (fun gs p => addToGroup gs p.1 (cl p.2)) [],
        g = specGroup cl pairs g.label := by
  induction pairs using List.reverseRecOn with
  | nil => simp
  | append_singleton pairs p ih =>
    obtain ⟨hnd, hlab, hspec⟩ := ih
    rw [List.foldl_append, List.foldl_cons, List.foldl_nil]
    generalize pairs.foldl (fun gs p => addToGroup gs p.1 (cl p.2)) [] = G at hnd hlab hspec
    refine ⟨?_, ?_, ?_⟩
    · rw [addToGroup_labels]
      split_ifs with h
      · exact hnd
      · exact List.Nodup.append hnd (List.nodup_singleton _) (by simpa using h)
    · intro L
      rw [addToGroup_labels]
      split_ifs with h
      · rw [hlab]
        constructor
        · rintro ⟨q, hq, rfl⟩
          exact ⟨q, List.mem_append_left _ hq, rfl⟩
        · rintro ⟨q, hq, rfl⟩
          rcases List.mem_append.1 hq with hq | hq
          · exact ⟨q, hq, rfl⟩
          · have : q = p := by simpa using hq
            subst this
            exact (hlab _).1 h
      · rw [List.mem_append, hlab]
        constructor
        · rintro (⟨q, hq, rfl⟩ | hL)
          · exact ⟨q, List.mem_append_left _ hq, rfl⟩
          · exact ⟨p, by simp, (List.mem_singleton.1 hL).symm⟩
        · rintro ⟨q, hq, rfl⟩
          rcases List.mem_append.1 hq with hq | hq
          · exact Or.inl ⟨q, hq, rfl⟩
          · have : q = p := by simpa using hq
            subst this
            exact Or.inr (by simp)
    · intro g hg
      rcases mem_addToGroup hg with ⟨hgG, hne⟩ | ⟨g0, hg0, hl, rfl⟩ | ⟨hnot, rfl⟩
      · rw [specGroup_append_ne cl pairs p g.label (Ne.symm hne)]
        exact hspec g hgG
      · have h0 := hspec g0 hg0
        rw [hl] at h0
        have hbl : (bump p.1 g0).label = cl p.2 := by simp [bump, hl]
        rw [hbl, specGroup_append_eq, ← h0]
      · have hbl : (bump p.1 (newGroup (cl p.2))).label = cl p.2 := by simp [bump, newGroup]
        rw [hbl, specGroup_append_eq, specGroup_of_unused]
        intro q hq hc
        exact hnot ((hlab _).2 ⟨q, hq, hc⟩)

theorem groupSolutions_spec (lower : Str → Str) (analyses : List IssueAnalysis)
    (g : SolutionGroup) (hg : g ∈ groupSolutions lower analyses) :
    g = specGroup (fun s => solutionType lower s.body) (excerptPairs analyses) g.label := by
  rw [groupSolutions_eq_foldl] at hg
  exact (foldl_addToGroup_spec (fun s => solutionType lower s.body) (excerptPairs analyses)).2.2
    g hg

theorem sum_excerptPairs (cl : Solution → Str) (f : IssueAnalysis → Nat) (L : Str)
    (analyses : List IssueAnalysis) :
    (((excerptPairs analyses).filter fun p => cl p.2 = L).map fun p => f p.1).sum =
      (analyses.map fun a => (a.solutions.filter fun s => cl s = L).length * f a).sum := by
  have inner : ∀ (a : IssueAnalysis) (sols : List Solution),
      (((sols.map fun s => (a, s)).filter fun p => cl p.2 = L).map fun p => f p.1).sum =
        (sols.filter fun s => cl s = L).length * f a := by
    intro a sols
    induction sols with
    | nil => simp
    | cons s rest ih =>
      by_cases h : cl s = L
      · simp only [List.map_cons, List.filter_cons, h, decide_True, if_true, List.sum_cons,
          List.length_cons, ih]
        ring
      · simpa [List.filter_cons, h] using ih
  induction analyses with
  | nil => simp [excerptPairs]
  | cons a rest ih =>
    have hcons : excerptPairs (a :: rest) = (a.solutions.map fun s => (a, s)) ++ excerptPairs rest := by
      simp [excerptPairs]
    rw [hcons, List.filter_append, List.map_append, List.sum_append, inner, ih]
    simp

theorem groupSolutions_sums (lower : Str → Str) (analyses : List IssueAnalysis)
    (g : SolutionGroup) (hg : g ∈ groupSolutions lower analyses) :
    g.trials =
        ((excerptPairs analyses).filter fun p => solutionType lower p.2.body = g.label).length
    ∧ g.success_count =
        (((excerptPairs analyses).filter fun p => solutionType lower p.2.body = g.label).map
          fun p => p.1.success_indicators).sum
    ∧ g.failure_count =
        (((excerptPairs analyses).filter fun p => solutionType lower p.2.body = g.label).map
          fun p => p.1.failure_indicators).sum := by
  have h := groupSolutions_spec lower analyses g hg
  have ht := congrArg SolutionGroup.trials h
  have hs := congrArg SolutionGroup.success_count h
  have hf := congrArg SolutionGroup.failure_count h
  simp only [specGroup] at ht hs hf
  exact ⟨ht, hs, hf⟩

/-- C2: every solution group has one trial per (issue, excerpt) pair whose excerpt
classifies to its label, its success and failure counts are the sums over those pairs
of the issue's signal counts, and so an issue with k excerpts in the group contributes
k times its whole-issue counts. -/
theorem groupSolutions_counts (lower : Str → Str) (analyses : List IssueAnalysis)
    (g : SolutionGroup) (hg : g ∈ groupSolutions lower analyses) :
    g.trials =
        ((excerptPairs analyses).filter fun p => solutionType lower p.2.body = g.label).length
    ∧ g.success_count =
        (((excerptPairs analyses).filter fun p => solutionType lower p.2.body = g.label).map
          fun p => p.1.success_indicators).sum
    ∧ g.failure_count =
        (((excerptPairs analyses).filter fun p => solutionType lower p.2.body = g.label).map
          fun p => p.1.failure_indicators).sum
    ∧ g.success_count =
        (analyses.map fun a =>
          (a.solutions.filter fun s => solutionType lower s.body = g.label).length
            * a.success_indicators).sum
    ∧ g.failure_count =
        (analyses.map fun a =>
          (a.solutions.filter fun s => solutionType lower s.body = g.label).length
            * a.failure_indicators).sum := by
  obtain ⟨ht, hs, hf⟩ := groupSolutions_sums lower analyses g hg
  refine ⟨ht, hs, hf, ?_, ?_⟩
  · rw [← sum_excerptPairs (fun s => solutionType lower s.body)
      (fun a => a.success_indicators)]
    exact hs
  · rw [← sum_excerptPairs (fun s => solutionType lower s.body)
      (fun a => a.failure_indicators)]
    exact hf

/-! ## Predictions and ranking -/

theorem mem_rankPredictions {groups : List SolutionGroup} {p : Prediction}
    (hp : p ∈ rankPredictions groups) : ∃ g ∈ groups, p = toPrediction g := by
  unfold rankPredictions at hp
  have h1 := List.mem_of_mem_take hp
  rw [List.mem_insertionSort] at h1
  obtain ⟨g, hg, rfl⟩ := List.mem_map.1 h1
  exact ⟨g, hg, rfl⟩

theorem successRate_bounds (g : SolutionGroup) : 0 ≤ successRate g ∧ successRate g ≤ 1 := by
  unfold successRate
  split_ifs with h
  · have hs : (0 : ℚ) ≤ (g.success_count : ℚ) := Nat.cast_nonneg _
    have hf : (0 : ℚ) ≤ (g.failure_count : ℚ) := Nat.cast_nonneg _
    constructor
    · exact div_nonneg hs (add_nonneg hs hf)
    · apply div_le_one_of_le₀
      · linarith
      · exact add_nonneg hs hf
  · constructor <;> norm_num

theorem predictions_of_report (lower : Str → Str) (search : Except Str (List Candidate)) :
    (analyzeResolutionProbability lower search).predictions = []
      ∨ ∃ groups, (analyzeResolutionProbability lower search).predictions
          = rankPredictions groups := by
  unfold analyzeResolutionProbability
  cases search with
  | error msg => exact Or.inl rfl
  | ok items =>
    by_cases h : items.length = 0
    · simp [h]
    · simp only [h, if_false]
      exact Or.inr ⟨_, rfl⟩

/-- C3: the success rate of a group's prediction is success_count divided by
success_count + failure_count when that sum is positive and exactly one half otherwise;
a group all of whose contributing threads have no success and no failure phrase has
success rate one half. -/
theorem successRate_of_group (lower : Str → Str) (analyses : List IssueAnalysis)
    (g : SolutionGroup) (hg : g ∈ groupSolutions lower analyses) :
    (0 < g.success_count + g.failure_count →
        (toPrediction g).success_rate =
          (g.success_count : ℚ) / ((g.success_count : ℚ) + (g.failure_count : ℚ)))
    ∧ (g.success_count + g.failure_count = 0 → (toPrediction g).success_rate = 1 / 2)
    ∧ ((∀ p ∈ excerptPairs analyses, solutionType lower p.2.body = g.label →
          p.1.success_indicators = 0 ∧ p.1.failure_indicators = 0) →
        (toPrediction g).success_rate = 1 / 2) := by
  have hzero : g.success_count + g.failure_count = 0 → (toPrediction g).success_rate = 1 / 2 := by
    intro h
    simp [toPrediction, successRate, h]
  refine ⟨?_, hzero, ?_⟩
  · intro h
    simp [toPrediction, successRate, h]
  · intro hall
    obtain ⟨-, hs, hf⟩ := groupSolutions_sums lower analyses g hg
    have hs0 : g.success_count = 0 := by
      rw [hs]
      apply List.sum_eq_zero
      intro x hx
      obtain ⟨p, hp, rfl⟩ := List.mem_map.1 hx
      rw [List.mem_filter] at hp
      exact (hall p hp.1 (by simpa using hp.2)).1
    have hf0 : g.failure_count = 0 := by
      rw [hf]
      apply List.sum_eq_zero
      intro x hx
      obtain ⟨p, hp, rfl⟩ := List.mem_map.1 hx
      rw [List.mem_filter] at hp
      exact (hall p hp.1 (by simpa using hp.2)).2
    exact hzero (by rw [hs0, hf0])

theorem insertionSort_filter_rate (l : List Prediction) (r : ℚ) :
    (l.insertionSort rateGE).filter (fun p => p.success_rate = r)
      = l.filter (fun p => p.success_rate = r) := by
  have hpw : (l.filter fun p => p.success_rate = r).Pairwise rateGE := by
    rw [List.pairwise_iff_forall_sublist]
    intro a b hab
    have ha := hab.subset (List.mem_cons_self _ _)
    have hb := hab.subset (List.mem_cons_of_mem _ (List.mem_cons_self _ _))
    rw [List.mem_filter] at ha hb
    have ha2 : a.success_rate = r := by simpa using ha.2
    have hb2 : b.success_rate = r := by simpa using hb.2
    simp [rateGE, ha2, hb2]
  have hsub : List.Sublist (l.filter fun p => p.success_rate = r) (l.insertionSort rateGE) :=
    List.sublist_insertionSort hpw (List.filter_sublist l)
  have hsub2 := hsub.filter (fun p => decide (p.success_rate = r))
  rw [List.filter_filter] at hsub2
  simp only [Bool.and_self] at hsub2
  have hlen : ((l.insertionSort rateGE).filter fun p => p.success_rate = r).length
      = (l.filter fun p => p.success_rate = r).length :=
    ((List.perm_insertionSort rateGE l).filter _).length_eq
  exact (hsub2.eq_of_length hlen.symm).symm

/-- C4: the predictions are the first five of the stable descending sort by success
rate of the groups' predictions in discovery order: together with the dropped tail they
are a rearrangement of all predictions, they are in non-increasing order of success
rate, predictions of equal success rate keep their discovery order (the kept ones of a
given rate are an initial segment, in order, of all predictions of that rate), and no
dropped prediction has a larger success rate than a kept one. -/
theorem rankPredictions_stable_sorted (groups : List SolutionGroup) :
    rankPredictions groups = ((groups.map toPrediction).insertionSort rateGE).take 5
    ∧ (rankPredictions groups ++ ((groups.map toPrediction).insertionSort rateGE).drop 5).Perm
        (groups.map toPrediction)
    ∧ (rankPredictions groups).length = min 5 groups.length
    ∧ (rankPredictions groups).Pairwise (fun a b => b.success_rate ≤ a.success_rate)
    ∧ (∀ r : ℚ,
        (rankPredictions groups ++ ((groups.map toPrediction).insertionSort rateGE).drop 5).filter
            (fun p => p.success_rate = r)
          = (groups.map toPrediction).filter (fun p => p.success_rate = r))
    ∧ (∀ r : ℚ,
        (rankPredictions groups).filter (fun p => p.success_rate = r)
          <+: (groups.map toPrediction).filter (fun p => p.success_rate = r))
    ∧ (∀ a ∈ rankPredictions groups,
        ∀ b ∈ ((groups.map toPrediction).insertionSort rateGE).drop 5,
          b.success_rate ≤ a.success_rate) := by
  have hsorted : ((groups.map toPrediction).insertionSort rateGE).Sorted rateGE :=
    List.sorted_insertionSort rateGE _
  refine ⟨rfl, ?_, ?_, ?_, ?_, ?_, ?_⟩
  · unfold rankPredictions
    rw [List.take_append_drop]
    exact List.perm_insertionSort rateGE _
  · simp [rankPredictions, List.length_take, List.length_insertionSort]
  · exact List.Pairwise.sublist (List.take_sublist _ _) hsorted
  · intro r
    unfold rankPredictions
    rw [List.take_append_drop]
    exact insertionSort_filter_rate _ r
  · intro r
    rw [← insertionSort_filter_rate (groups.map toPrediction) r]
    exact (List.take_prefix 5 _).filter _
  · intro a ha b hb
    exact hsorted.rel_of_mem_take_of_mem_drop ha hb

/-- C5: in every report the predictor returns there are at most five predictions, every
success rate lies between 0 and 1, and every evidence list has at most three entries. -/
theorem report_bounds (lower : Str → Str) (search : Except Str (List Candidate)) :
    (analyzeResolutionProbability lower search).predictions.length ≤ 5
    ∧ ∀ p ∈ (analyzeResolutionProbability lower search).predictions,
        0 ≤ p.success_rate ∧ p.success_rate ≤ 1 ∧ p.evidence.length ≤ 3 := by
  rcases predictions_of_report lower search with h | ⟨groups, h⟩
  · rw [h]
    simp
  · rw [h]
    constructor
    · exact List.length_take_le 5 _
    · intro p hp
      obtain ⟨g, -, rfl⟩ := mem_rankPredictions hp
      exact ⟨(successRate_bounds g).1, (successRate_bounds g).2, List.length_take_le 3 _⟩

/-- C6: a prediction's confidence is high exactly when trials > 3, medium exactly when
1 < trials ≤ 3 and low exactly when trials ≤ 1; one trial gives low, two and three give
medium, four gives high. -/
theorem prediction_confidence (g : SolutionGroup) :
    ((toPrediction g).confidence = Confidence.high ↔ (toPrediction g).trials > 3)
    ∧ ((toPrediction g).confidence = Confidence.medium ↔
        1 < (toPrediction g).trials ∧ (toPrediction g).trials ≤ 3)
    ∧ ((toPrediction g).confidence = Confidence.low ↔ (toPrediction g).trials ≤ 1)
    ∧ groupConfidence 1 = Confidence.low
    ∧ groupConfidence 2 = Confidence.medium
    ∧ groupConfidence 3 = Confidence.medium
    ∧ groupConfidence 4 = Confidence.high := by
  refine ⟨?_, ?_, ?_, by decide, by decide, by decide, by decide⟩
  · simp only [toPrediction, groupConfidence]
    split_ifs <;> simp <;> omega
  · simp only [toPrediction, groupConfidence]
    split_ifs <;> simp <;> omega
  · simp only [toPrediction, groupConfidence]
    split_ifs <;> simp <;> omega

/-- C7: after a successful search, a report for no candidates has no predictions,
confidence low, the diagnostic message and no error; a report for at least one candidate
has confidence high exactly when its first prediction exists and has more than three
trials, and confidence medium in every other case. -/
theorem report_confidence (lower : Str → Str) (closedIssues : List Candidate) :
    (closedIssues = [] →
        analyzeResolutionProbability lower (.ok closedIssues) =
          { predictions := [], total_issues_analyzed := none, confidence := Confidence.low,
            message := some Message.noSimilarClosedIssues, error := none })
    ∧ (closedIssues ≠ [] →
        ((analyzeResolutionProbability lower (.ok closedIssues)).confidence = Confidence.high ↔
          ∃ p, (analyzeResolutionProbability lower (.ok closedIssues)).predictions.head? = some p
            ∧ p.trials > 3)
        ∧ ((analyzeResolutionProbability lower (.ok closedIssues)).confidence = Confidence.medium ↔
          ¬ ∃ p, (analyzeResolutionProbability lower (.ok closedIssues)).predictions.head? = some p
            ∧ p.trials > 3)
        ∧ (analyzeResolutionProbability lower (.ok closedIssues)).error = none) := by
  constructor
  · intro h
    subst h
    rfl
  · intro h
    have hlen : ¬ closedIssues.length = 0 := by
      simpa [List.length_eq_zero] using h
    simp only [analyzeResolutionProbability, hlen, if_false, buildReport]
    generalize rankPredictions _ = preds
    cases preds with
    | nil => simp [reportConfidence]
    | cons p rest =>
      simp only [reportConfidence, List.head?_cons]
      split_ifs with ht <;> simp [ht]

/-! ## Success and failure indicators -/

theorem allText_eq_specThreadText (lower : Str → Str) (comments : List Comment) :
    allText lower comments = specThreadText lower comments := by
  unfold allText specThreadText
  have hsep : lit " " = [32] := by decide
  rw [hsep]
  congr 1
  apply List.map_congr_left
  intro c _
  unfold lowerBody
  cases c.body with
  | none => rfl
  | some b =>
    by_cases h : (lower b).isEmpty = true
    · simp only [h, if_true]
      exact (List.isEmpty_iff.1 h).symm
    · simp only [h]
      rfl

theorem countPhrases_eq_card (phrases : List Str) (hnd : phrases.Nodup) (text : Str) :
    countPhrases phrases text = (phrases.toFinset.filter fun p => p <:+: text).card := by
  unfold countPhrases
  have hfun : (fun phrase => includes text phrase) = fun p => decide (p <:+: text) := by
    funext p
    exact includes_eq_decide text p
  rw [hfun, ← List.toFinset_card_of_nodup (hnd.filter _), List.toFinset_filter]
  congr 1
  ext p
  simp

theorem successPhrases_nodup : successPhrases.Nodup := by decide

theorem failurePhrases_nodup : failurePhrases.Nodup := by decide

/-- C8: the success indicator of a thread is the number of distinct phrases of the
ten-phrase success set that occur in the thread text (bodies lowercased, a missing body
empty, joined by single spaces), the failure indicator the same for the seven-phrase
failure set; so they are at most 10 and 7. -/
theorem indicators_count_distinct_phrases (lower : Str → Str) (issue : Issue)
    (comments : List Comment) :
    (analyzeThread lower issue comments).success_indicators =
        (successPhrases.toFinset.filter fun p => p <:+: specThreadText lower comments).card
    ∧ (analyzeThread lower issue comments).failure_indicators =
        (failurePhrases.toFinset.filter fun p => p <:+: specThreadText lower comments).card
    ∧ successPhrases.toFinset.card = 10
    ∧ failurePhrases.toFinset.card = 7
    ∧ (analyzeThread lower issue comments).success_indicators ≤ 10
    ∧ (analyzeThread lower issue comments).failure_indicators ≤ 7 := by
  refine ⟨?_, ?_, ?_, ?_, ?_, ?_⟩
  · simp only [analyzeThread]
    rw [allText_eq_specThreadText, countPhrases_eq_card _ successPhrases_nodup]
  · simp only [analyzeThread]
    rw [allText_eq_specThreadText, countPhrases_eq_card _ failurePhrases_nodup]
  · rw [List.toFinset_card_of_nodup successPhrases_nodup]
    rfl
  · rw [List.toFinset_card_of_nodup failurePhrases_nodup]
    rfl
  · exact List.length_filter_le _ successPhrases
  · exact List.length_filter_le _ failurePhrases

/-! ## Failed thread requests -/

theorem filterMap_analyzeCandidate (lower : Str → Str) (l : List Candidate) :
    (l.map (analyzeCandidate lower)).filterMap id =
      (l.filter fun c => c.thread.isSome).map
        fun c => analyzeThread lower c.issue (c.thread.getD []) := by
  induction l with
  | nil => rfl
  | cons c rest ih =>
    cases hc : c.thread with
    | none => simp [analyzeCandidate, hc, List.filter_cons, ih]
    | some comments => simp [analyzeCandidate, hc, List.filter_cons, ih]

theorem validAnalysis_eq (lower : Str → Str) (closedIssues : List Candidate) :
    validAnalysis lower closedIssues =
      (fetched closedIssues).map fun c => analyzeThread lower c.issue (c.thread.getD []) := by
  unfold validAnalysis fetched
  exact filterMap_analyzeCandidate lower _

theorem fetched_length_le (closedIssues : List Candidate) :
    (fetched closedIssues).length ≤ 15 := by
  unfold fetched
  exact le_trans (List.length_filter_le _ _) (by simp [List.length_take])

theorem fetched_fetched (closedIssues : List Candidate) :
    fetched (fetched closedIssues) = fetched closedIssues := by
  have h := fetched_length_le closedIssues
  have h1 : fetched (fetched closedIssues) =
      ((fetched closedIssues).take 15).filter fun c => c.thread.isSome := rfl
  rw [h1, List.take_of_length_le h]
  unfold fetched
  rw [List.filter_filter]
  simp

theorem fetched_take (closedIssues : List Candidate) :
    fetched (closedIssues.take 15) = fetched closedIssues := by
  unfold fetched
  rw [List.take_take]
  simp

theorem report_of_nonempty (lower : Str → Str) (closedIssues : List Candidate)
    (h : closedIssues ≠ []) :
    analyzeResolutionProbability lower (.ok closedIssues) =
      buildReport lower
        ((fetched closedIssues).map fun c => analyzeThread lower c.issue (c.thread.getD [])) := by
  have hlen : ¬ closedIssues.length = 0 := by
    simpa [List.length_eq_zero] using h
  simp only [analyzeResolutionProbability, hlen, if_false, validAnalysis_eq]

/-- C9 (amended): for a non-empty candidate list the report is the one built from the
analyses of only the first-fifteen candidates whose thread request succeeded, in their
original order; total_issues_analyzed is their number, no error is set, candidates
after the fifteenth do not contribute, the report is the predictor's report for those
candidates alone whenever at least one request succeeded, and fifteen candidates with
exactly one failing request give fourteen analysed issues. -/
theorem report_drops_failed_fetches (lower : Str → Str) (closedIssues : List Candidate)
    (h : closedIssues ≠ []) :
    analyzeResolutionProbability lower (.ok closedIssues) =
        buildReport lower
          ((fetched closedIssues).map fun c => analyzeThread lower c.issue (c.thread.getD []))
    ∧ (analyzeResolutionProbability lower (.ok closedIssues)).total_issues_analyzed =
        some (fetched closedIssues).length
    ∧ (analyzeResolutionProbability lower (.ok closedIssues)).error = none
    ∧ analyzeResolutionProbability lower (.ok closedIssues) =
        analyzeResolutionProbability lower (.ok (closedIssues.take 15))
    ∧ (fetched closedIssues ≠ [] →
        analyzeResolutionProbability lower (.ok closedIssues) =
          analyzeResolutionProbability lower (.ok (fetched closedIssues)))
    ∧ (closedIssues.length = 15 →
        (closedIssues.filter fun c => c.thread.isNone).length = 1 →
        (analyzeResolutionProbability lower (.ok closedIssues)).total_issues_analyzed =
          some 14) := by
  have hrep := report_of_nonempty lower closedIssues h
  have htotal : (analyzeResolutionProbability lower (.ok closedIssues)).total_issues_analyzed =
      some (fetched closedIssues).length := by
    rw [hrep]
    simp [buildReport]
  refine ⟨hrep, htotal, ?_, ?_, ?_, ?_⟩
  · rw [hrep]
    rfl
  · have htake : closedIssues.take 15 ≠ [] := by
      cases closedIssues with
      | nil => exact absurd rfl h
      | cons c rest => simp
    rw [hrep, report_of_nonempty lower _ htake, fetched_take]
  · intro hne
    rw [hrep, report_of_nonempty lower _ hne, fetched_fetched]
  · intro h15 hone
    rw [htotal]
    have hsplit := List.length_eq_length_filter_add (l := closedIssues)
      (fun c => c.thread.isSome)
    have hnone : (closedIssues.filter fun c => !(c.thread.isSome)).length = 1 := by
      rw [← hone]
      congr 1
      apply List.filter_congr
      intro c _
      cases c.thread <;> rfl
    have hf : fetched closedIssues = closedIssues.filter fun c => c.thread.isSome := by
      unfold fetched
      rw [List.take_of_length_le (by omega)]
    rw [hf]
    congr 1
    omega

/-! ## A thread of one comment -/

theorem rankPredictions_singleton (g : SolutionGroup) :
    rankPredictions [g] = [toPrediction g] := by
  simp [rankPredictions, List.insertionSort, List.orderedInsert]

theorem allText_singleton (lower : Str → Str) (c : Comment) (body : Str)
    (hbody : c.body = some body) : allText lower [c] = lower body := by
  have h1 : allText lower [c] = lowerBody lower c := by
    simp [allText, List.intercalate]
  rw [h1]
  unfold lowerBody
  rw [hbody]
  by_cases h : (lower body).isEmpty = true
  · simp only [h, if_true]
    exact (List.isEmpty_iff.1 h).symm
  · simp only [h]
    rfl

theorem predictions_single_comment (lower : Str → Str) (issue : Issue) (c : Comment) :
    (analyzeResolutionProbability lower (.ok [{ issue := issue, thread := some [c] }])).predictions
      = rankPredictions (groupSolutions lower [analyzeThread lower issue [c]]) := by
  simp [analyzeResolutionProbability, buildReport, validAnalysis, analyzeCandidate]

/-- C10 (amended): for a closed issue whose thread is a single comment whose lowercased
body contains "thanks!" and whose lowercased excerpt contains "upgrade", the excerpt
classifies into upgrade_dependency and the thread's success signal is at least 1; when
the comment qualifies as solution evidence the report consists of one prediction, for
upgrade_dependency, with trials = 1 and success_count at least 1, and when it does not
qualify the report has no predictions. -/
theorem single_upgrade_comment (lower : Str → Str) (issue : Issue) (c : Comment)
    (body : Str) (hbody : c.body = some body)
    (hup : lit "upgrade" <:+: lower (body.take 500))
    (hth : lit "thanks!" <:+: lower body) :
    solutionType lower (body.take 500) = lit "upgrade_dependency"
    ∧ 1 ≤ (analyzeThread lower issue [c]).success_indicators
    ∧ (isSolutionComment c = true →
        ∃ p, (analyzeResolutionProbability lower
                (.ok [{ issue := issue, thread := some [c] }])).predictions = [p]
          ∧ p.label = displayLabel (lit "upgrade_dependency")
          ∧ p.label = lit "UPGRADE DEPENDENCY"
          ∧ p.trials = 1
          ∧ 1 ≤ p.success_count)
    ∧ (isSolutionComment c = false →
        (analyzeResolutionProbability lower
          (.ok [{ issue := issue, thread := some [c] }])).predictions = []) := by
  have hty : solutionType lower (body.take 500) = lit "upgrade_dependency" := by
    have h : includes (lower (body.take 500)) (lit "upgrade") = true := (includes_iff _ _).2 hup
    simp [solutionType, h]
  have hsucc : 1 ≤ (analyzeThread lower issue [c]).success_indicators := by
    simp only [analyzeThread, countPhrases]
    rw [allText_singleton lower c body hbody]
    apply List.length_pos_of_mem (a := lit "thanks!")
    rw [List.mem_filter]
    exact ⟨by decide, (includes_iff _ _).2 hth⟩
  refine ⟨hty, hsucc, ?_, ?_⟩
  · intro hev
    have hsol : (analyzeThread lower issue [c]).solutions =
        [{ author := c.login, body := body.take 500, created_at := c.created_at }] := by
      simp [analyzeThread, extractSolutions, List.filter_cons, hev, hbody]
    have hgroups : groupSolutions lower [analyzeThread lower issue [c]] =
        [bump (analyzeThread lower issue [c]) (newGroup (lit "upgrade_dependency"))] := by
      simp [groupSolutions, hsol, hty, addToGroup, newGroup]
    refine ⟨toPrediction (bump (analyzeThread lower issue [c])
      (newGroup (lit "upgrade_dependency"))), ?_, ?_, ?_, ?_, ?_⟩
    · rw [predictions_single_comment, hgroups, rankPredictions_singleton]
    · rfl
    · show displayLabel (lit "upgrade_dependency") = lit "UPGRADE DEPENDENCY"
      decide
    · rfl
    · simpa [toPrediction, bump, newGroup] using hsucc
  · intro hev
    have hsol : (analyzeThread lower issue [c]).solutions = [] := by
      simp [analyzeThread, extractSolutions, List.filter_cons, hev]
    rw [predictions_single_comment]
    simp [groupSolutions, hsol, rankPredictions]

/-! ## Concrete evaluations -/

theorem groupSolutions_counts_witness :
    demoGroup ∈ groupSolutions asciiLower [demoAnalysis]
    ∧ demoGroup.trials =
        ((excerptPairs [demoAnalysis]).filter
          fun p => solutionType asciiLower p.2.body = demoGroup.label).length
    ∧ demoGroup.success_count =
        ([demoAnalysis].map fun a =>
          (a.solutions.filter fun s => solutionType asciiLower s.body = demoGroup.label).length
            * a.success_indicators).sum :=
  ⟨by decide, (groupSolutions_counts asciiLower [demoAnalysis] demoGroup (by decide)).1,
    (groupSolutions_counts asciiLower [demoAnalysis] demoGroup (by decide)).2.2.2.1⟩

theorem successRate_of_group_witness :
    quietGroup ∈ groupSolutions asciiLower [quietAnalysis]
    ∧ quietGroup.success_count + quietGroup.failure_count = 0
    ∧ (toPrediction quietGroup).success_rate = 1 / 2 :=
  ⟨by decide, by decide,
    (successRate_of_group asciiLower [quietAnalysis] quietGroup (by decide)).2.1 (by decide)⟩

/-- C9 (counterexample): when the only candidate's thread request fails the report
(no predictions, 0 issues analysed, confidence medium) is not the predictor's report for
the surviving candidates, of which there are none (confidence low); and for an empty
candidate list the report has no total_issues_analyzed although no candidate survives. -/
theorem failed_fetches_counterexample :
    analyzeResolutionProbability asciiLower (.ok [failingCandidate]) ≠
        analyzeResolutionProbability asciiLower (.ok (fetched [failingCandidate]))
    ∧ (analyzeResolutionProbability asciiLower (.ok [failingCandidate])).confidence
        = Confidence.medium
    ∧ (analyzeResolutionProbability asciiLower (.ok (fetched [failingCandidate]))).confidence
        = Confidence.low
    ∧ (analyzeResolutionProbability asciiLower (.ok [])).total_issues_analyzed ≠
        some (fetched []).length := by
  refine ⟨?_, by decide, by decide, by decide⟩
  intro h
  have hc := congrArg Report.confidence h
  exact absurd hc (by decide)

theorem report_drops_failed_fetches_witness :
    [failingCandidate, thanksCandidate] ≠ []
    ∧ (analyzeResolutionProbability asciiLower
        (.ok [failingCandidate, thanksCandidate])).total_issues_analyzed = some 1 :=
  ⟨by decide,
    (report_drops_failed_fetches asciiLower [failingCandidate, thanksCandidate] (by decide)).2.1⟩

/-- C10 (counterexample): for a closed issue whose thread is the single comment
"please upgrade lodash to fix this, thanks!" the comment is not taken as solution
evidence, and the report has no prediction at all. -/
theorem thanks_comment_counterexample :
    thanksCandidate.thread = some [thanksComment]
    ∧ thanksComment.body = some (lit "please upgrade lodash to fix this, thanks!")
    ∧ isSolutionComment thanksComment = false
    ∧ (analyzeResolutionProbability asciiLower (.ok [thanksCandidate])).predictions = []
    ∧ ¬ ∃ p ∈ (analyzeResolutionProbability asciiLower (.ok [thanksCandidate])).predictions,
        p.trials = 1 ∧ 1 ≤ p.success_count := by
  have h : (analyzeResolutionProbability asciiLower (.ok [thanksCandidate])).predictions = [] := by
    decide
  refine ⟨rfl, rfl, by decide, h, ?_⟩
  rw [h]
  simp

theorem single_upgrade_comment_witness :
    fencedComment.body = some fencedBody
    ∧ lit "upgrade" <:+: asciiLower (fencedBody.take 500)
    ∧ lit "thanks!" <:+: asciiLower fencedBody
    ∧ isSolutionComment fencedComment = true
    ∧ ∃ p, (analyzeResolutionProbability asciiLower
              (.ok [{ issue := sampleIssue, thread := some [fencedComment] }])).predictions = [p]
        ∧ p.label = displayLabel (lit "upgrade_dependency")
        ∧ p.label = lit "UPGRADE DEPENDENCY"
        ∧ p.trials = 1
        ∧ 1 ≤ p.success_count :=
  ⟨rfl, by decide, by decide, by decide,
    (single_upgrade_comment asciiLower sampleIssue fencedComment fencedBody rfl
      (by decide) (by decide)).2.2.1 (by decide)⟩

/-! ## Fallback analysis of a query -/

theorem foldl_scan_keywords (q : Str) (ps : List (Str × List Str)) (acc : List Str × List Str) :
    ∀ k ∈ (ps.foldl
        (fun (acc : List Str × List Str) (p : Str × List Str) =>
          if regexTest p.2 q then
            (acc.1 ++ [p.1],
              match regexMatch p.2 q with
              | some m => acc.2 ++ [m]
              | none => acc.2)
          else acc)
        acc).1,
      k ∈ acc.1 ∨ k ∈ ps.map Prod.fst := by
  induction ps generalizing acc with
  | nil =>
    intro k hk
    exact Or.inl hk
  | cons p rest ih =>
    intro k hk
    rw [List.foldl_cons] at hk
    rcases ih _ k hk with h | h
    · by_cases ht : regexTest p.2 q = true
      · rw [if_pos ht] at h
        rcases List.mem_append.1 h with h1 | h1
        · exact Or.inl h1
        · exact Or.inr (by simp [List.mem_singleton.1 h1])
      · rw [if_neg ht] at h
        exact Or.inl h
    · exact Or.inr (List.mem_cons_of_mem _ h)

theorem scanPatterns_keywords (q : Str) :
    ∀ k ∈ (scanPatterns q).1, k ∈ patterns.map Prod.fst := by
  intro k hk
  rcases foldl_scan_keywords q patterns ([], []) k hk with h | h
  · simp at h
  · exact h

theorem fallback_severity_medium (lower : Str → Str) (query : Str) :
    (smartAnalyze lower none query).severity = lit "medium" := by
  have h1 : lit "crash" ∉ (scanPatterns (lower query)).1 := by
    intro hc
    have hm := scanPatterns_keywords _ _ hc
    revert hm
    decide
  have h2 : lit "critical" ∉ (scanPatterns (lower query)).1 := by
    intro hc
    have hm := scanPatterns_keywords _ _ hc
    revert hm
    decide
  simp [smartAnalyze, h1, h2]

/-- C11 (code defect): for the query "app crash on startup" the fallback analyzer
matches the substring "crash" (category bugs) and reports it among the returned
keywords, yet the returned severity is medium, because line 98 searches the category
names for "crash" and "critical". -/
theorem crash_query_severity_medium :
    (scanPatterns (asciiLower (lit "app crash on startup"))).1 = [lit "bugs"]
    ∧ (smartAnalyze asciiLower none (lit "app crash on startup")).tech_stack = [lit "crash"]
    ∧ (smartAnalyze asciiLower none (lit "app crash on startup")).keywords = [lit "crash"]
    ∧ (smartAnalyze asciiLower none (lit "app crash on startup")).severity = lit "medium"
    ∧ (smartAnalyze asciiLower none (lit "app crash on startup")).severity ≠ lit "high" := by
  refine ⟨by decide, by decide, by decide, by decide, by decide⟩

/-! ## Dependent success phrases -/

/-- C14: whenever the thread text contains "resolved", also inside a longer word, the
success indicator is at least 2, since the phrase "solved" occurs wherever "resolved"
does. -/
theorem resolved_counts_twice (lower : Str → Str) (issue : Issue) (comments : List Comment)
    (h : lit "resolved" <:+: allText lower comments) :
    2 ≤ (analyzeThread lower issue comments).success_indicators := by
  have hsolved : lit "solved" <:+: allText lower comments :=
    List.IsInfix.trans (by decide) h
  have hsub : List.Sublist [lit "solved", lit "resolved"] successPhrases := by decide
  have hfil := hsub.filter (fun phrase => includes (allText lower comments) phrase)
  have hkeep : ([lit "solved", lit "resolved"].filter
      fun phrase => includes (allText lower comments) phrase)
      = [lit "solved", lit "resolved"] := by
    simp [List.filter_cons, (includes_iff _ _).2 hsolved, (includes_iff _ _).2 h]
  rw [hkeep] at hfil
  exact hfil.length_le

theorem resolved_counts_twice_witness :
    lit "resolved" <:+: allText asciiLower
        [{ body := some (lit "This is still UNRESOLVED for me"), login := lit "dev",
           created_at := lit "2024-01-05" }]
    ∧ 2 ≤ (analyzeThread asciiLower sampleIssue
        [{ body := some (lit "This is still UNRESOLVED for me"), login := lit "dev",
           created_at := lit "2024-01-05" }]).success_indicators :=
  ⟨by decide, resolved_counts_twice asciiLower sampleIssue _ (by decide)⟩

/-! ## Relevant open issues -/

theorem isRelevantIssue_iff (lower : Str → Str) (hlower : lower [] = [])
    (keywords : List Str) (issue : OpenIssue) :
    isRelevantIssue lower keywords issue = true ↔ specRelevant lower keywords issue := by
  unfold isRelevantIssue specRelevant
  rw [Bool.and_eq_true, List.any_eq_true]
  apply and_congr
  · cases issue.pull_request <;> simp
  · apply exists_congr
    intro k
    apply and_congr_right
    intro _
    rw [Bool.or_eq_true, includes_iff]
    cases hb : issue.body with
    | none => simp [bodyContains]
    | some b =>
      simp only [bodyContains, Bool.and_eq_true, includes_iff]
      constructor
      · rintro (h | ⟨_, h⟩)
        · exact Or.inl h
        · exact Or.inr h
      · rintro (h | h)
        · exact Or.inl h
        · cases b with
          | nil =>
            rw [hlower] at h
            have hk : lower k = [] := List.infix_nil.1 h
            rw [hk]
            exact Or.inl List.nil_infix
          | cons c rest => exact Or.inr ⟨by simp, h⟩

/-- C13: the issues returned are the summaries of the first five, in fetch order, of the
open issues that are no pull request and whose title or body contains at least one
keyword as a case-insensitive substring; "Add dark mode" is excluded for the keywords
auth and performance, and an empty keyword list returns no issue. -/
theorem relevantIssues_spec (lower : Str → Str) (hlower : lower [] = [])
    (keywords : List Str) (issues : List OpenIssue) :
    relevantIssues lower keywords issues =
        ((issues.filter fun issue => decide (specRelevant lower keywords issue)).take 5).map
          summarize
    ∧ (relevantIssues lower keywords issues).length ≤ 5
    ∧ relevantIssues lower [] issues = []
    ∧ relevantIssues asciiLower [lit "auth", lit "performance"] [darkModeIssue] = [] := by
  refine ⟨?_, ?_, ?_, by decide⟩
  · unfold relevantIssues
    congr 2
    apply List.filter_congr
    intro issue _
    rw [Bool.eq_iff_iff, isRelevantIssue_iff lower hlower, decide_eq_true_iff]
  · unfold relevantIssues
    rw [List.length_map]
    exact List.length_take_le 5 _
  · simp [relevantIssues, isRelevantIssue]

theorem relevantIssues_spec_witness :
    asciiLower [] = []
    ∧ relevantIssues asciiLower [lit "auth", lit "performance"] [darkModeIssue, authIssue] =
        (([darkModeIssue, authIssue].filter fun issue =>
            decide (specRelevant asciiLower [lit "auth", lit "performance"] issue)).take 5).map
          summarize
    ∧ relevantIssues asciiLower [lit "auth", lit "performance"] [darkModeIssue, authIssue] =
        [summarize authIssue] :=
  ⟨rfl,
    (relevantIssues_spec asciiLower rfl [lit "auth", lit "performance"]
      [darkModeIssue, authIssue]).1,
    by decide⟩

/-! ## Search terms of the fallback -/

theorem splitSpacesAux_filter (s : Str) (cur : Str) (inSep : Bool)
    (hinv : inSep = true → cur = []) :
    (splitSpacesAux cur inSep s).filter (fun w => !w.isEmpty) =
      (List.splitOnP.go isSpaceChar s cur).filter (fun w => !w.isEmpty) := by
  induction s generalizing cur inSep with
  | nil => rfl
  | cons c rest ih =>
    by_cases hc : isSpaceChar c = true
    · cases inSep with
      | true =>
        have hcur := hinv rfl
        subst hcur
        simp only [splitSpacesAux, List.splitOnP.go, hc, if_true, List.reverse_nil]
        rw [ih [] true (fun _ => rfl)]
        simp [List.filter_cons]
      | false =>
        simp only [splitSpacesAux, List.splitOnP.go, hc, if_true, Bool.false_eq_true, if_false,
          List.filter_cons]
        rw [ih [] true (fun _ => rfl)]
    · simp only [splitSpacesAux, List.splitOnP.go, hc, if_false]
      exact ih (c :: cur) false (fun h => absurd h (by simp))

theorem splitSpaces_filter_keepWord (s : Str) :
    (splitSpaces s).filter keepWord =
      (specWords s).filter fun w => decide (3 < w.length ∧ w ∉ stopWords) := by
  have hkeep : ∀ l : List Str, l.filter keepWord =
      (l.filter fun w => !w.isEmpty).filter fun w => decide (3 < w.length ∧ w ∉ stopWords) := by
    intro l
    rw [List.filter_filter]
    apply List.filter_congr
    intro w _
    cases w with
    | nil => simp [keepWord]
    | cons c rest => simp [keepWord]
  rw [hkeep, specWords]
  unfold splitSpaces
  rw [splitSpacesAux_filter s [] false (fun h => absurd h (by simp))]
  rfl

theorem searchTerms_eq_spec (q : Str) : searchTerms q = specSearchTerms q := by
  unfold searchTerms specSearchTerms
  rw [splitSpaces_filter_keepWord]
  have hsep : lit " " = [32] := by decide
  rw [hsep]

/-- C12: for a non-empty query the search terms of the fallback analyzer are non-empty:
they are the space-joined words of the lowercased, stripped query that are longer than
three characters and no stop word, or the lowercased query itself when no such word is
left. Lowercasing is assumed to keep a non-empty string non-empty. -/
theorem fallback_search_terms (lower : Str → Str) (hlower : ∀ s, s ≠ [] → lower s ≠ [])
    (query : Str) (hq : query ≠ []) :
    (smartAnalyze lower none query).search_terms ≠ []
    ∧ (smartAnalyze lower none query).search_terms =
        if specSearchTerms (lower query) = [] then lower query
        else specSearchTerms (lower query) := by
  have hst : (smartAnalyze lower none query).search_terms =
      if specSearchTerms (lower query) = [] then lower query
      else specSearchTerms (lower query) := by
    simp only [smartAnalyze, searchTerms_eq_spec, List.isEmpty_iff]
  refine ⟨?_, hst⟩
  rw [hst]
  split_ifs with h
  · exact hlower query hq
  · exact h

theorem fallback_search_terms_witness :
    (∀ s, s ≠ [] → asciiLower s ≠ [])
    ∧ lit "Why is THIS build so slow?!" ≠ []
    ∧ (smartAnalyze asciiLower none (lit "Why is THIS build so slow?!")).search_terms ≠ []
    ∧ (smartAnalyze asciiLower none (lit "Why is THIS build so slow?!")).search_terms
        = lit "build slow" :=
  ⟨fun s hs => by simpa [asciiLower] using hs, by decide,
    (fallback_search_terms asciiLower (fun s hs => by simpa [asciiLower] using hs)
      (lit "Why is THIS build so slow?!") (by decide)).1,
    by decide⟩

end IRP
